import Mathlib

/-!
Verification of the MoneyClaw model-registry discovery, replication and
inference-routing subsystems against their natural-language specification.

The registry discoverers are translated from the TypeScript sources
(the OpenAI discoverer and src/anthropic/discover.ts).  The persistent
store helpers (src/state/database.ts) and the replication / inference
implementations (src/replication/spawn.ts, cleanup.ts, lineage.ts,
src/conway/inference.ts) are not part of the visible sources - only their
tests are - so those are modelled from the specification, as marked in
their doc comments.

Conventions: a SQLite table is a Lean list of rows; the scripted HTTP
capability of the tests becomes an explicit argument describing each
response; thrown JS errors become Except.error.
-/

/-! ## String helpers

The JS string operations used by the source are modelled over the
character list of the string, so that every definition evaluates by plain
structural recursion. -/

/-- Prefix test: the JS String.startsWith. -/
def strStartsWith (s pat : String) : Bool :=
  pat.toList.isPrefixOf s.toList

/-- Suffix test: the JS regex anchor at the end of the string. -/
def strEndsWith (s pat : String) : Bool :=
  pat.toList.isSuffixOf s.toList

/-- ASCII lowercasing: the JS toLowerCase on the model ids involved. -/
def strToLower (s : String) : String :=
  String.mk (s.toList.map Char.toLower)

/-- Occurrence of pat anywhere in the character list. -/
def listContainsSub (pat : List Char) : List Char → Bool
  | [] => pat.isEmpty
  | c :: rest => pat.isPrefixOf (c :: rest) || listContainsSub pat rest

/-- Substring containment test: the JS String.includes and the unanchored
regex tests of the discoverers. -/
def strContains (s pat : String) : Bool :=
  listContainsSub pat.toList s.toList

/-- Whitespace trim at both ends: the JS String.trim. -/
def strTrim (s : String) : String :=
  String.mk (((s.toList.dropWhile Char.isWhitespace).reverse.dropWhile
    Char.isWhitespace).reverse)

/-- The JS replace of a single trailing slash: baseUrl.replace with regex
slash-at-end, used to normalise base URLs. -/
def stripTrailingSlash (s : String) : String :=
  if strEndsWith s "/" then s.dropRight 1 else s

/-- Word character in the sense of the JS regex class w: ASCII letters,
digits and underscore. -/
def isWordChar (c : Char) : Bool :=
  c.isAlphanum || c == '_'

/-- Uppercase every word character that starts a word (the JS global replace
of word-boundary-then-word-char by its uppercase).  The boolean argument
records whether the previous character was a word character. -/
def capitalizeWordStarts (prevWord : Bool) : List Char → List Char
  | [] => []
  | c :: cs =>
    let c2 := if isWordChar c && !prevWord then c.toUpper else c
    c2 :: capitalizeWordStarts (isWordChar c) cs

/-! ## Model registry data model

The rows of the model_registry table, with the fields read and written by
the discoverers.  Costs are carried as integers because the discoverers
only copy them around. -/

structure ModelRegistryRow where
  modelId : String
  provider : String
  displayName : String
  tierMinimum : String
  costPer1kInput : Int
  costPer1kOutput : Int
  maxTokens : Nat
  contextWindow : Nat
  supportsTools : Bool
  supportsVision : Bool
  parameterStyle : String
  enabled : Bool
  createdAt : String
  updatedAt : String
deriving Repr, DecidableEq

/-- Modelled from the spec: src/state/database.ts is not among the visible
sources.  Spec 4.1 lists the store operation "upsert registry row, list
enabled rows, flip enabled flag"; this is the row lookup by modelId used
by both discoverers. -/
def modelRegistryGet (db : List ModelRegistryRow) (modelId : String) :
    Option ModelRegistryRow :=
  db.find? (fun r => r.modelId == modelId)

/-- Modelled from the spec: src/state/database.ts is not among the visible
sources.  Spec 4.1 "upsert registry row" together with the spec 3 invariant
"exactly one row per modelId; provider never changes after first insert":
on a modelId hit every field except provider is updated, on a miss the row
is inserted. -/
def modelRegistryUpsert (db : List ModelRegistryRow) (row : ModelRegistryRow) :
    List ModelRegistryRow :=
  if db.any (fun r => r.modelId == row.modelId) then
    db.map (fun r =>
      if r.modelId == row.modelId then { row with provider := r.provider } else r)
  else
    db ++ [row]

/-- Modelled from the spec: src/state/database.ts is not among the visible
sources.  Returns every registry row. -/
def modelRegistryGetAll (db : List ModelRegistryRow) : List ModelRegistryRow :=
  db

/-- Modelled from the spec: src/state/database.ts is not among the visible
sources.  Spec 4.1 "flip enabled flag": sets the enabled flag of the rows
with the given modelId. -/
def modelRegistrySetEnabled (db : List ModelRegistryRow) (modelId : String)
    (enabled : Bool) : List ModelRegistryRow :=
  db.map (fun r => if r.modelId == modelId then { r with enabled := enabled } else r)

/-- Result of one discovery pass: the returned list of discovered ids, the
registry contents afterwards, and the messages passed to logger.warn. -/
structure DiscoverResult where
  registered : List String
  db : List ModelRegistryRow
  warnings : List String
deriving Repr

/-! ## OpenAI model discovery (translated from the OpenAI discoverer source) -/

/-- The OpenAIModel interface of the source; only the id field is ever read
(object, created and owned_by are never used), so only id is modelled. -/
structure OpenAIModel where
  id : String
deriving Repr, DecidableEq

/-- Outcome of the fetch of {baseUrl}/v1/models: either the fetch or the
JSON parse threw (netErr, the catch branch), or a response arrived with the
given ok flag and status, with the parsed data field (none when the body
has no data array). -/
inductive OpenAIFetch where
  | netErr (msg : String)
  | resp (ok : Bool) (status : Nat) (dataArr : Option (List OpenAIModel))
deriving Repr

namespace OpenAI

/-- The CHAT_MODEL_PATTERN regex of the source, anchored at the start and
case-insensitive: gpt-, o1 or o3 followed by a dash or a dot, exactly o1 or
o3, or chatgpt-. -/
def chatModelPattern (modelId : String) : Bool :=
  let l := strToLower modelId
  strStartsWith l "gpt-" || strStartsWith l "o1-" || strStartsWith l "o1." ||
    strStartsWith l "o3-" || strStartsWith l "o3." || l == "o1" || l == "o3" ||
    strStartsWith l "chatgpt-"

/-- The EXCLUDE_PATTERN regex of the source, anchored at the start and
case-insensitive. -/
def excludePattern (modelId : String) : Bool :=
  let l := strToLower modelId
  strStartsWith l "dall-e" || strStartsWith l "whisper" || strStartsWith l "tts" ||
    strStartsWith l "text-embedding" || strStartsWith l "ft:" ||
    strStartsWith l "babbage" || strStartsWith l "davinci" ||
    strStartsWith l "curie" || strStartsWith l "ada"

/-- The formatDisplayName helper of the OpenAI discoverer.  The source
chains case-insensitive prefix replacements (gpt- to GPT-, leading o1/o3
to O1/O3, chatgpt- to ChatGPT-), turns dashes into spaces, uppercases word
starts, and ends with a digit-dot-digit replace that rewrites each match
to itself and is therefore the identity. -/
def formatDisplayName (modelId : String) : String :=
  let s1 :=
    if strStartsWith (strToLower modelId) "gpt-" then "GPT-" ++ modelId.drop 4
    else modelId
  let s2 :=
    if strStartsWith (strToLower s1) "o1" then "O1" ++ s1.drop 2
    else if strStartsWith (strToLower s1) "o3" then "O3" ++ s1.drop 2
    else s1
  let s3 :=
    if strStartsWith (strToLower s2) "chatgpt-" then "ChatGPT-" ++ s2.drop 8 else s2
  let s4 := String.mk (s3.toList.map (fun c => if c == '-' then ' ' else c))
  String.mk (capitalizeWordStarts false s4.toList)

/-- The detectVisionSupport helper of the OpenAI discoverer: an unanchored
case-insensitive match of gpt-4o, gpt-4-turbo, gpt-4-vision, o1 or o3. -/
def detectVisionSupport (modelId : String) : Bool :=
  let l := strToLower modelId
  strContains l "gpt-4o" || strContains l "gpt-4-turbo" ||
    strContains l "gpt-4-vision" || strContains l "o1" || strContains l "o3"

end OpenAI

/-- Stock-OpenAI detection of the source: the normalised base URL contains
api.openai.com. -/
def isStockOpenAIUrl (baseUrl : String) : Bool :=
  strContains (stripTrailingSlash baseUrl) "api.openai.com"

/-- Row constructed by the OpenAI discoverer for a discovered modelId,
mirroring the source field by field: each field falls back to the existing
row via the JS nullish coalescing, except displayName, which uses the JS
or-else and therefore also replaces an empty existing display name. -/
def openAIUpsertRow (now modelId : String) (existing : Option ModelRegistryRow) :
    ModelRegistryRow :=
  let existingDisplay := (existing.map (fun e => e.displayName)).getD ""
  { modelId := modelId
    provider := "openai"
    displayName :=
      if existingDisplay == "" then OpenAI.formatDisplayName modelId
      else existingDisplay
    tierMinimum := (existing.map (fun e => e.tierMinimum)).getD "normal"
    costPer1kInput := (existing.map (fun e => e.costPer1kInput)).getD 0
    costPer1kOutput := (existing.map (fun e => e.costPer1kOutput)).getD 0
    maxTokens := (existing.map (fun e => e.maxTokens)).getD 4096
    contextWindow := (existing.map (fun e => e.contextWindow)).getD 128000
    supportsTools := (existing.map (fun e => e.supportsTools)).getD true
    supportsVision :=
      (existing.map (fun e => e.supportsVision)).getD (OpenAI.detectVisionSupport modelId)
    parameterStyle := (existing.map (fun e => e.parameterStyle)).getD "max_completion_tokens"
    enabled := (existing.map (fun e => e.enabled)).getD true
    createdAt := (existing.map (fun e => e.createdAt)).getD now
    updatedAt := now }

/-- One iteration of the discovery loop over data.data: skip an empty id,
apply the stock-OpenAI chat filter, otherwise upsert and record the id in
registered (the discovered set of the source holds the same ids). -/
def openAIDiscoverStep (isStock : Bool) (now : String)
    (st : List ModelRegistryRow × List String) (m : OpenAIModel) :
    List ModelRegistryRow × List String :=
  if m.id == "" then st
  else if isStock && !(OpenAI.chatModelPattern m.id && !OpenAI.excludePattern m.id) then st
  else
    let row := openAIUpsertRow now m.id (modelRegistryGet st.1 m.id)
    (modelRegistryUpsert st.1 row, st.2 ++ [m.id])

/-- One iteration of the tombstoning loop of the OpenAI discoverer: skip a
row of another provider, a row seen this pass or a row already disabled;
disable the rest. -/
def openAITombstoneStep (discovered : List String)
    (acc : List ModelRegistryRow) (row : ModelRegistryRow) :
    List ModelRegistryRow :=
  if row.provider != "openai" then acc
  else if discovered.contains row.modelId then acc
  else if !row.enabled then acc
  else modelRegistrySetEnabled acc row.modelId false

/-- The tombstoning loop of the OpenAI discoverer, over all existing
rows. -/
def openAITombstone (discovered : List String) (db : List ModelRegistryRow) :
    List ModelRegistryRow :=
  (modelRegistryGetAll db).foldl (openAITombstoneStep discovered) db

/-- The discoverOpenAIModels function of the source.  The fetch of
{baseUrl}/v1/models is abstracted as the fetched argument; apiKey only
feeds the Authorization header and now stands for the ISO timestamp taken
at the start of the pass.  Failures return an empty list with a warning;
on success each kept id is upserted, and when at least one model was
discovered the unseen enabled openai rows are disabled. -/
def discoverOpenAIModels (baseUrl apiKey : String) (fetched : OpenAIFetch)
    (db : List ModelRegistryRow) (now : String) : DiscoverResult :=
  let isStock := isStockOpenAIUrl baseUrl
  match fetched with
  | .netErr msg =>
    ⟨[], db, ["OpenAI API not reachable at " ++ baseUrl ++ ": " ++ msg]⟩
  | .resp ok status dataArr =>
    if !ok then
      ⟨[], db, ["OpenAI /v1/models returned " ++ toString status ++ " - skipping discovery"]⟩
    else
      match dataArr with
      | none => ⟨[], db, ["OpenAI /v1/models response has no data array"]⟩
      | some models =>
        let st := models.foldl (openAIDiscoverStep isStock now) (db, [])
        let db2 := if st.2.isEmpty then st.1 else openAITombstone st.2 st.1
        ⟨st.2, db2, []⟩

/-! ## Anthropic model discovery (translated from src/anthropic/discover.ts) -/

/-- The AnthropicModel interface of the source; only id and display_name
are ever read (created_at and type are never used). -/
structure AnthropicModel where
  id : String
  displayName : String
deriving Repr, DecidableEq

/-- Outcome of one page fetch of {baseUrl}/v1/models: either the fetch or
the JSON parse threw (netErr), or a response arrived with the given ok
flag and status, the parsed data field (none when the body has no data
array), and the pagination fields has_more and last_id. -/
inductive AnthropicFetch where
  | netErr (msg : String)
  | resp (ok : Bool) (status : Nat) (dataArr : Option (List AnthropicModel))
      (hasMore : Bool) (lastId : String)
deriving Repr

namespace Anthropic

/-- Take the leading run of ASCII digits of a character list, returning the
run and the remainder. -/
def spanDigits : List Char → List Char × List Char
  | [] => ([], [])
  | c :: cs =>
    if c.isDigit then
      let p := spanDigits cs
      (c :: p.1, p.2)
    else ([], c :: cs)

/-- The global dash-digits-dash-digits-dash replacement of the Anthropic
formatDisplayName, rewritten as a character scan with an explicit fuel
argument (the fuel starts at the length of the list, and every step
consumes at least one character, so it never runs out). -/
def replaceDashNums : Nat → List Char → List Char
  | 0, l => l
  | _ + 1, [] => []
  | fuel + 1, c :: rest =>
    if c == '-' then
      let p1 := spanDigits rest
      match p1.2 with
      | '-' :: rest2 =>
        let p2 := spanDigits rest2
        match p1.1, p2.1, p2.2 with
        | d1 :: ds1, d2 :: ds2, '-' :: rest3 =>
          ' ' :: (d1 :: ds1) ++ '.' :: (d2 :: ds2) ++ ' ' :: replaceDashNums fuel rest3
        | _, _, _ => c :: replaceDashNums fuel rest
      | _ => c :: replaceDashNums fuel rest
    else c :: replaceDashNums fuel rest

/-- Strip a trailing dash followed by exactly eight digits (the date-suffix
replace of the Anthropic formatDisplayName). -/
def stripDateSuffix (s : String) : String :=
  let cs := s.toList
  let tail9 := cs.drop (cs.length - 9)
  match tail9 with
  | '-' :: ds => if ds.length == 8 && ds.all Char.isDigit then s.dropRight 9 else s
  | _ => s

/-- The formatDisplayName helper of the Anthropic discoverer: replace a
leading claude- by Claude-and-space, rewrite dash-digits-dash-digits-dash
groups as space-digits-dot-digits-space, strip a trailing eight-digit date
suffix, turn dashes into spaces, uppercase word starts, and trim. -/
def formatDisplayName (modelId : String) : String :=
  let s1 :=
    if strStartsWith (strToLower modelId) "claude-" then "Claude " ++ modelId.drop 7
    else modelId
  let s2 := String.mk (replaceDashNums s1.length s1.toList)
  let s3 := stripDateSuffix s2
  let s4 := String.mk (s3.toList.map (fun c => if c == '-' then ' ' else c))
  strTrim (String.mk (capitalizeWordStarts false s4.toList))

/-- The detectVisionSupport helper of the Anthropic discoverer: an
unanchored case-insensitive match of claude-3 or claude-4. -/
def detectVisionSupport (modelId : String) : Bool :=
  let l := strToLower modelId
  strContains l "claude-3" || strContains l "claude-4"

end Anthropic

/-- Row constructed by the Anthropic discoverer for a discovered model,
mirroring the source field by field; displayName uses the JS or-else chain
existing display name, then the display_name of the response, then the
formatted id. -/
def anthropicUpsertRow (now : String) (m : AnthropicModel)
    (existing : Option ModelRegistryRow) : ModelRegistryRow :=
  let existingDisplay := (existing.map (fun e => e.displayName)).getD ""
  { modelId := m.id
    provider := "anthropic"
    displayName :=
      if existingDisplay == "" then
        if m.displayName == "" then Anthropic.formatDisplayName m.id else m.displayName
      else existingDisplay
    tierMinimum := (existing.map (fun e => e.tierMinimum)).getD "normal"
    costPer1kInput := (existing.map (fun e => e.costPer1kInput)).getD 0
    costPer1kOutput := (existing.map (fun e => e.costPer1kOutput)).getD 0
    maxTokens := (existing.map (fun e => e.maxTokens)).getD 4096
    contextWindow := (existing.map (fun e => e.contextWindow)).getD 200000
    supportsTools := (existing.map (fun e => e.supportsTools)).getD true
    supportsVision :=
      (existing.map (fun e => e.supportsVision)).getD (Anthropic.detectVisionSupport m.id)
    parameterStyle := (existing.map (fun e => e.parameterStyle)).getD "max_tokens"
    enabled := (existing.map (fun e => e.enabled)).getD true
    createdAt := (existing.map (fun e => e.createdAt)).getD now
    updatedAt := now }

/-- One iteration of the Anthropic discovery loop over data.data: skip an
empty id, otherwise upsert and record the id. -/
def anthropicDiscoverStep (now : String)
    (st : List ModelRegistryRow × List String) (m : AnthropicModel) :
    List ModelRegistryRow × List String :=
  if m.id == "" then st
  else
    let row := anthropicUpsertRow now m (modelRegistryGet st.1 m.id)
    (modelRegistryUpsert st.1 row, st.2 ++ [m.id])

/-- The pagination loop of discoverAnthropicModels.  The fetch argument
receives the page number (starting at 1) and the after_id cursor of the
request.  The fuel counts the pages left before MAX_PAGES is reached; a
netErr is the catch branch of the source and, like a non-ok status or a
missing data array, returns the ids registered so far with a warning. -/
def discoverAnthropicLoop (fetch : Nat → Option String → AnthropicFetch)
    (now : String) : Nat → Nat → Option String →
    List ModelRegistryRow → List String → DiscoverResult
  | 0, _, _, db, registered => ⟨registered, db, []⟩
  | fuel + 1, pageCount, afterId, db, registered =>
    match fetch (pageCount + 1) afterId with
    | .netErr msg =>
      ⟨registered, db, ["Anthropic API not reachable: " ++ msg]⟩
    | .resp ok status dataArr hasMore lastId =>
      if !ok then
        ⟨registered, db,
          ["Anthropic /v1/models returned " ++ toString status ++ " - skipping discovery"]⟩
      else
        match dataArr with
        | none => ⟨registered, db, ["Anthropic /v1/models response has no data array"]⟩
        | some models =>
          let st := models.foldl (anthropicDiscoverStep now) (db, registered)
          if !hasMore then ⟨st.2, st.1, []⟩
          else discoverAnthropicLoop fetch now fuel (pageCount + 1) (some lastId) st.1 st.2

/-- The discoverAnthropicModels function of src/anthropic/discover.ts.
The paginated fetches are abstracted as the fetch argument; apiKey only
feeds the x-api-key header, baseUrl only the request URL, and now stands
for the ISO timestamp taken at the start of the pass.  At most MAX_PAGES
= 5 pages are fetched; there is no tombstoning loop in this discoverer. -/
def discoverAnthropicModels (baseUrl apiKey : String)
    (fetch : Nat → Option String → AnthropicFetch)
    (db : List ModelRegistryRow) (now : String) : DiscoverResult :=
  discoverAnthropicLoop fetch now 5 0 none db []

/-! ## Replication subsystem (spec-modelled: only its tests are visible) -/

/-- A row of the children table, with the columns of the test fixture
insert: id, name, address, sandbox_id, genesis_prompt, status,
created_at. -/
structure Child where
  id : String
  name : String
  address : String
  sandboxId : String
  genesisPrompt : String
  status : String
  createdAt : String
deriving Repr, DecidableEq

/-- An entry of the append-only lifecycle log: child id, transition name,
resulting state, timestamp. -/
structure LifecycleEvent where
  childId : String
  transition : String
  toState : String
  timestamp : String
deriving Repr, DecidableEq

/-- Persisted replication state: the children table and the lifecycle
event log. -/
structure ReplState where
  children : List Child
  events : List LifecycleEvent
deriving Repr, DecidableEq

/-- ASCII hexadecimal digit. -/
def isHexDigit (c : Char) : Bool :=
  c.isDigit || (('a' ≤ c && c ≤ 'f') || ('A' ≤ c && c ≤ 'F'))

/-- Modelled from the spec: src/replication/spawn.ts is not among the
visible sources.  Spec 8: isValidWalletAddress x holds exactly when x is
0x followed by forty hex digits, case-insensitive, and is not the zero
address (as exercised by the isValidWalletAddress tests). -/
def isValidWalletAddress (address : String) : Bool :=
  let cs := address.toList
  strStartsWith address "0x" && cs.length == 42 &&
    (cs.drop 2).all isHexDigit && !((cs.drop 2).all (fun c => c == '0'))

/-- Scan of a character list for the first 0x-and-forty-hex-digits run,
advancing one character on a failed match attempt, like an unanchored
regex search. -/
def scanWallet : List Char → Option String
  | [] => none
  | c :: rest =>
    if c == '0' && rest.head? == some 'x' then
      let hexPart := (rest.drop 1).take 40
      if hexPart.length == 40 && hexPart.all isHexDigit then
        some (String.mk ('0' :: 'x' :: hexPart))
      else scanWallet rest
    else scanWallet rest

/-- Modelled from the spec: src/replication/spawn.ts is not among the
visible sources.  Spec 4.6 step 3 parses the stdout of the init command
for a wallet address; the match is the first 0x-and-forty-hex substring. -/
def parseWalletAddress (stdout : String) : Option String :=
  scanWallet stdout.toList

/-- Result of the sandbox exec capability of spec 6: stdout, stderr and
exit code. -/
structure ExecResult where
  stdout : String
  stderr : String
  exitCode : Int
deriving Repr

/-- Scripted sandbox capability for one spawn attempt: the outcome of
createSandbox, of the dependency-install exec (spec 4.6 step 2), of the
init-command exec (step 3), and of deleteSandbox.  A JS throw is
Except.error. -/
structure SandboxScript where
  createSandbox : Except String String
  installExec : Except String ExecResult
  initExec : Except String ExecResult
  deleteSandbox : Except String Unit
deriving Repr

/-- Outcome of one spawnChild run: the returned child or the propagated
error, the sandbox ids on which deleteSandbox was attempted, and the
persisted state afterwards. -/
structure SpawnOutcome where
  result : Except String Child
  deletedSandboxes : List String
  state : ReplState
deriving Repr

/-- Modelled from the spec: src/replication/spawn.ts is not among the
visible sources.  Spec 4.6 spawn protocol: create the sandbox (on failure
bubble up, nothing persisted, no delete); run the install and init execs;
parse and validate the wallet address; on any exec failure or validation
failure attempt deleteSandbox and propagate the original error - the
outcome never depends on the deleteSandbox field of the script, which is
how a delete-time error cannot mask the original one; only after a valid
address insert the child row (status spawning, as the spawnChild test
observes) and append the initial sandbox_created lifecycle event. -/
def spawnChild (cap : SandboxScript) (st : ReplState)
    (childId name genesisPrompt now : String) : SpawnOutcome :=
  match cap.createSandbox with
  | .error e => ⟨.error e, [], st⟩
  | .ok sandboxId =>
    match cap.installExec with
    | .error e => ⟨.error e, [sandboxId], st⟩
    | .ok _ =>
      match cap.initExec with
      | .error e => ⟨.error e, [sandboxId], st⟩
      | .ok r =>
        match parseWalletAddress r.stdout with
        | none => ⟨.error "Child wallet address invalid", [sandboxId], st⟩
        | some address =>
          if isValidWalletAddress address then
            let child : Child :=
              ⟨childId, name, address, sandboxId, genesisPrompt, "spawning", now⟩
            ⟨.ok child, [],
              ⟨st.children ++ [child],
               st.events ++ [⟨childId, "sandbox_created", "created", now⟩]⟩⟩
          else ⟨.error "Child wallet address invalid", [sandboxId], st⟩

/-- Latest lifecycle state of a child: the toState of the last event with
its id. -/
def getCurrentState (events : List LifecycleEvent) (childId : String) :
    Option String :=
  ((events.filter (fun e => e.childId == childId)).getLast?).map (fun e => e.toState)

/-- Modelled from the spec: src/replication/cleanup.ts is not among the
visible sources.  Spec 4.6 cleanup: attempt sandbox deletion; only on
success transition the child to cleaned_up; on failure raise the deletion
error and leave the lifecycle log unchanged. -/
def cleanupChild (deleteSandbox : Except String Unit)
    (events : List LifecycleEvent) (childId now : String) :
    Except String Unit × List LifecycleEvent :=
  match deleteSandbox with
  | .error e => (.error e, events)
  | .ok _ => (.ok (), events ++ [⟨childId, "cleaned_up", "cleaned_up", now⟩])

/-- Oldest-first order on children: by created timestamp (the ISO text of
created_at, compared lexicographically), ties broken by id ascending
(spec 4.6 pruning). -/
def childOrder (a b : Child) : Prop :=
  a.createdAt < b.createdAt ∨ (a.createdAt = b.createdAt ∧ a.id ≤ b.id)

instance : DecidableRel childOrder := fun a b => by
  unfold childOrder
  infer_instance

/-- Sorting of children into oldest-first order (an ORDER BY created_at,
id query in the store). -/
def sortChildrenOldestFirst (l : List Child) : List Child :=
  l.insertionSort childOrder

/-- Outcome of a prune pass: the returned number removed and the child ids
passed to cleanup, in call order. -/
structure PruneOutcome where
  removed : Nat
  cleanupCalls : List String
deriving Repr, DecidableEq

/-- Modelled from the spec: src/replication/lineage.ts is not among the
visible sources.  Spec 4.6 pruning: list the children in dead status
oldest-first (ties on timestamp break by id ascending), call cleanup for
all but the most recent keepLast of them, and return the number
removed. -/
def pruneDeadChildren (children : List Child) (keepLast : Nat) : PruneOutcome :=
  let dead := children.filter (fun c => c.status == "dead")
  let sorted := sortChildrenOldestFirst dead
  let toRemove := sorted.take (sorted.length - keepLast)
  ⟨toRemove.length, toRemove.map (fun c => c.id)⟩

/-! ## Inference router chat call (spec-modelled: only its tests are visible) -/

/-- Chat message of the router contract. -/
structure ChatMessage where
  role : String
  content : String
deriving Repr, DecidableEq

/-- Usage block of the router contract. -/
structure ChatUsage where
  promptTokens : Nat
  completionTokens : Nat
  totalTokens : Nat
deriving Repr, DecidableEq

/-- The ChatResult message-and-usage contract of spec 4.4. -/
structure ChatResult where
  message : ChatMessage
  usage : ChatUsage
deriving Repr, DecidableEq

/-- Scripted provider response to one outbound POST: a chat-shaped success
body, a legacy completions-shaped success body (choices with flat text),
or an HTTP error with status and body text. -/
inductive ProviderResponse where
  | chatOk (content : String) (promptTokens completionTokens totalTokens : Nat)
  | legacyOk (text : String) (promptTokens completionTokens totalTokens : Nat)
  | httpError (status : Nat) (body : String)
deriving Repr

/-- Outcome of one chat call: the adapted result or the propagated error,
and the outbound request URLs in call order. -/
structure ChatOutcome where
  result : Except String ChatResult
  calls : List String
deriving Repr

/-- Recognizer of the provider error that triggers the legacy fallback: a
404 whose body mentions endpoint not supported (the shape of the
low-compute test fixture). -/
def isEndpointUnsupported (status : Nat) (body : String) : Bool :=
  status == 404 && strContains body "endpoint not supported"

/-- Modelled from the spec: src/conway/inference.ts is not among the
visible sources.  Spec 4.4 step 5: a chat call first POSTs to
/v1/chat/completions; on a 404 endpoint-not-supported error it retries
exactly once against /v1/completions and adapts the legacy choices text
back into the message-and-usage chat contract.  The responses argument
scripts the provider answer to the n-th outbound call. -/
def inferenceChat (baseUrl : String) (responses : Nat → ProviderResponse) :
    ChatOutcome :=
  let chatUrl := baseUrl ++ "/v1/chat/completions"
  let legacyUrl := baseUrl ++ "/v1/completions"
  match responses 0 with
  | .chatOk content p q t =>
    ⟨.ok ⟨⟨"assistant", content⟩, ⟨p, q, t⟩⟩, [chatUrl]⟩
  | .legacyOk _ _ _ _ =>
    ⟨.error "unexpected response shape from chat endpoint", [chatUrl]⟩
  | .httpError status body =>
    if isEndpointUnsupported status body then
      match responses 1 with
      | .legacyOk text p q t =>
        ⟨.ok ⟨⟨"assistant", text⟩, ⟨p, q, t⟩⟩, [chatUrl, legacyUrl]⟩
      | .chatOk _ _ _ _ =>
        ⟨.error "unexpected response shape from completions endpoint",
          [chatUrl, legacyUrl]⟩
      | .httpError status2 _ =>
        ⟨.error ("inference request failed with status " ++ toString status2),
          [chatUrl, legacyUrl]⟩
    else
      ⟨.error ("inference request failed with status " ++ toString status), [chatUrl]⟩

/-! ## Registry lemmas -/

theorem mem_of_modelRegistryGet {db : List ModelRegistryRow} {id : String}
    {r : ModelRegistryRow} (h : modelRegistryGet db id = some r) :
    r ∈ db ∧ r.modelId = id := by
  refine ⟨List.mem_of_find?_eq_some h, ?_⟩
  have hp := List.find?_some h
  simpa using hp

theorem modelRegistryUpsert_mem_of_ne {db : List ModelRegistryRow}
    {row r : ModelRegistryRow} (hr : r ∈ db) (hne : r.modelId ≠ row.modelId) :
    r ∈ modelRegistryUpsert db row := by
  unfold modelRegistryUpsert
  split
  · exact List.mem_map.mpr ⟨r, hr, by simp [hne]⟩
  · exact List.mem_append_left _ hr

theorem find?_upsertMap_of_ne (row : ModelRegistryRow) (id : String)
    (hne : id ≠ row.modelId) (db : List ModelRegistryRow) :
    ((db.map (fun r =>
        if r.modelId == row.modelId then { row with provider := r.provider } else r)).find?
      (fun r => r.modelId == id)) = db.find? (fun r => r.modelId == id) := by
  induction db with
  | nil => rfl
  | cons x xs ih =>
    rw [List.map_cons]
    by_cases hx : x.modelId = row.modelId
    · rw [if_pos (by simpa using hx)]
      rw [List.find?_cons_of_neg _ (by simp [Ne.symm hne]),
        List.find?_cons_of_neg _ (by simp [hx, Ne.symm hne])]
      exact ih
    · rw [if_neg (by simpa using hx)]
      by_cases hpx : x.modelId = id
      · rw [List.find?_cons_of_pos _ (by simpa using hpx),
          List.find?_cons_of_pos _ (by simpa using hpx)]
      · rw [List.find?_cons_of_neg _ (by simpa using hpx),
          List.find?_cons_of_neg _ (by simpa using hpx)]
        exact ih

theorem modelRegistryGet_upsert_of_ne {db : List ModelRegistryRow}
    {row : ModelRegistryRow} {id : String} (hne : id ≠ row.modelId) :
    modelRegistryGet (modelRegistryUpsert db row) id = modelRegistryGet db id := by
  unfold modelRegistryUpsert modelRegistryGet
  split
  · exact find?_upsertMap_of_ne row id hne db
  · rw [List.find?_append]
    cases h : db.find? (fun r => r.modelId == id) with
    | some r => simp
    | none => simp [Ne.symm hne]

theorem find?_upsertMap_self (row : ModelRegistryRow) {id : String}
    {e : ModelRegistryRow} (hid : row.modelId = id) (db : List ModelRegistryRow)
    (h : db.find? (fun r => r.modelId == id) = some e) :
    ((db.map (fun r =>
        if r.modelId == row.modelId then { row with provider := r.provider } else r)).find?
      (fun r => r.modelId == id)) = some { row with provider := e.provider } := by
  induction db with
  | nil => simp at h
  | cons x xs ih =>
    rw [List.map_cons]
    by_cases hx : x.modelId = id
    · have hex : x = e := by
        rw [List.find?_cons_of_pos _ (by simpa using hx)] at h
        exact Option.some.inj h
      subst hex
      rw [if_pos (by simp [hx, hid])]
      rw [List.find?_cons_of_pos _ (by simpa using hid)]
    · rw [List.find?_cons_of_neg _ (by simpa using hx)] at h
      rw [if_neg (by simp [hx, hid])]
      rw [List.find?_cons_of_neg _ (by simpa using hx)]
      exact ih h

theorem modelRegistryGet_upsert_self {db : List ModelRegistryRow}
    {row e : ModelRegistryRow} {id : String}
    (hid : row.modelId = id) (h : modelRegistryGet db id = some e) :
    modelRegistryGet (modelRegistryUpsert db row) id =
      some { row with provider := e.provider } := by
  have hany : db.any (fun r => r.modelId == row.modelId) = true := by
    rcases mem_of_modelRegistryGet h with ⟨hm, hmid⟩
    exact List.any_eq_true.mpr ⟨e, hm, by simp [hmid, hid]⟩
  unfold modelRegistryUpsert modelRegistryGet
  rw [if_pos hany]
  exact find?_upsertMap_self row hid db h

theorem modelRegistrySetEnabled_get_of_ne {db : List ModelRegistryRow}
    {id2 : String} {b : Bool} {id : String} (hne : id ≠ id2) :
    modelRegistryGet (modelRegistrySetEnabled db id2 b) id = modelRegistryGet db id := by
  unfold modelRegistrySetEnabled modelRegistryGet
  induction db with
  | nil => rfl
  | cons x xs ih =>
    rw [List.map_cons]
    by_cases hx : x.modelId = id2
    · rw [if_pos (by simpa using hx)]
      rw [List.find?_cons_of_neg _ (by simp [hx, Ne.symm hne]),
        List.find?_cons_of_neg _ (by simp [hx, Ne.symm hne])]
      exact ih
    · rw [if_neg (by simpa using hx)]
      by_cases hpx : x.modelId = id
      · rw [List.find?_cons_of_pos _ (by simpa using hpx),
          List.find?_cons_of_pos _ (by simpa using hpx)]
      · rw [List.find?_cons_of_neg _ (by simpa using hpx),
          List.find?_cons_of_neg _ (by simpa using hpx)]
        exact ih

theorem modelRegistrySetEnabled_false_target {db : List ModelRegistryRow}
    {id : String} :
    ∀ r ∈ modelRegistrySetEnabled db id false, r.modelId = id → r.enabled = false := by
  intro r hr hrid
  unfold modelRegistrySetEnabled at hr
  rcases List.mem_map.mp hr with ⟨x, _, hfx⟩
  by_cases hx : x.modelId = id
  · rw [if_pos (by simpa using hx)] at hfx
    rw [← hfx]
  · rw [if_neg (by simpa using hx)] at hfx
    exact absurd (hfx ▸ hrid) hx

theorem modelRegistrySetEnabled_preserves_disabled {db : List ModelRegistryRow}
    {id2 tid : String}
    (h : ∀ r ∈ db, r.modelId = tid → r.enabled = false) :
    ∀ r ∈ modelRegistrySetEnabled db id2 false, r.modelId = tid → r.enabled = false := by
  intro r hr hrid
  unfold modelRegistrySetEnabled at hr
  rcases List.mem_map.mp hr with ⟨x, hx, hfx⟩
  by_cases hxid : x.modelId = id2
  · rw [if_pos (by simpa using hxid)] at hfx
    rw [← hfx]
  · rw [if_neg (by simpa using hxid)] at hfx
    exact hfx ▸ h x hx (hfx ▸ hrid)

/-- Provider recorded for a modelId, if any. -/
def providerOf (db : List ModelRegistryRow) (id : String) : Option String :=
  (modelRegistryGet db id).map (fun r => r.provider)

theorem modelRegistryGet_setEnabled_self {db : List ModelRegistryRow}
    {id : String} {b : Bool} :
    modelRegistryGet (modelRegistrySetEnabled db id b) id =
      (modelRegistryGet db id).map (fun r => { r with enabled := b }) := by
  unfold modelRegistrySetEnabled modelRegistryGet
  induction db with
  | nil => rfl
  | cons x xs ih =>
    rw [List.map_cons]
    by_cases hx : x.modelId = id
    · rw [if_pos (by simpa using hx)]
      rw [List.find?_cons_of_pos _ (by simpa using hx),
        List.find?_cons_of_pos _ (by simpa using hx)]
      rfl
    · rw [if_neg (by simpa using hx)]
      rw [List.find?_cons_of_neg _ (by simpa using hx),
        List.find?_cons_of_neg _ (by simpa using hx)]
      exact ih

theorem providerOf_upsert {db : List ModelRegistryRow} (row : ModelRegistryRow)
    {id : String} (h : (providerOf db id).isSome) :
    providerOf (modelRegistryUpsert db row) id = providerOf db id := by
  by_cases hid : id = row.modelId
  · obtain ⟨e, he⟩ : ∃ e, modelRegistryGet db id = some e := by
      unfold providerOf at h
      cases hg : modelRegistryGet db id with
      | none => rw [hg] at h; simp at h
      | some e => exact ⟨e, rfl⟩
    unfold providerOf
    rw [modelRegistryGet_upsert_self hid.symm he, he]
    rfl
  · unfold providerOf
    rw [modelRegistryGet_upsert_of_ne hid]

theorem providerOf_setEnabled {db : List ModelRegistryRow} {id2 : String}
    {b : Bool} {id : String} :
    providerOf (modelRegistrySetEnabled db id2 b) id = providerOf db id := by
  by_cases hid : id = id2
  · subst hid
    unfold providerOf
    rw [modelRegistryGet_setEnabled_self]
    cases modelRegistryGet db id <;> rfl
  · unfold providerOf
    rw [modelRegistrySetEnabled_get_of_ne hid]

theorem modelRegistryUpsert_mem_decomp {db : List ModelRegistryRow}
    {row r2 : ModelRegistryRow} (h : r2 ∈ modelRegistryUpsert db row) :
    r2 ∈ db ∨
      (∃ r ∈ db, r.modelId = row.modelId ∧ r2 = { row with provider := r.provider }) ∨
      (r2 = row ∧ modelRegistryGet db row.modelId = none) := by
  unfold modelRegistryUpsert at h
  by_cases hany : db.any (fun r => r.modelId == row.modelId) = true
  · rw [if_pos hany] at h
    rcases List.mem_map.mp h with ⟨x, hx, hfx⟩
    by_cases hxid : x.modelId = row.modelId
    · rw [if_pos (by simpa using hxid)] at hfx
      refine Or.inr (Or.inl ⟨x, hx, hxid, ?_⟩)
      exact hfx.symm
    · rw [if_neg (by simpa using hxid)] at hfx
      exact Or.inl (hfx ▸ hx)
  · rw [if_neg hany] at h
    rcases List.mem_append.mp h with hin | hin
    · exact Or.inl hin
    · refine Or.inr (Or.inr ⟨List.mem_singleton.mp hin, ?_⟩)
      unfold modelRegistryGet
      apply List.find?_eq_none.mpr
      intro x hx
      intro hc
      exact hany (List.any_eq_true.mpr ⟨x, ⟨hx, hc⟩⟩)

/-! ## OpenAI discovery loop lemmas -/

theorem openAIDiscoverStep_cases (isStock : Bool) (now : String)
    (st : List ModelRegistryRow × List String) (m : OpenAIModel) :
    openAIDiscoverStep isStock now st m = st ∨
      openAIDiscoverStep isStock now st m =
        (modelRegistryUpsert st.1 (openAIUpsertRow now m.id (modelRegistryGet st.1 m.id)),
         st.2 ++ [m.id]) := by
  unfold openAIDiscoverStep
  split
  · exact Or.inl rfl
  · split
    · exact Or.inl rfl
    · exact Or.inr rfl

theorem openAIDiscoverFold_registered_mono (isStock : Bool) (now : String)
    (models : List OpenAIModel) :
    ∀ st : List ModelRegistryRow × List String, ∀ x ∈ st.2,
      x ∈ (models.foldl (openAIDiscoverStep isStock now) st).2 := by
  induction models with
  | nil => intro st x hx; exact hx
  | cons m ms ih =>
    intro st x hx
    rw [List.foldl_cons]
    refine ih _ x ?_
    rcases openAIDiscoverStep_cases isStock now st m with hc | hc
    · rw [hc]; exact hx
    · rw [hc]; exact List.mem_append_left _ hx

theorem openAIDiscoverFold_registered_length (isStock : Bool) (now : String)
    (models : List OpenAIModel) :
    ∀ st : List ModelRegistryRow × List String,
      st.2.length ≤ (models.foldl (openAIDiscoverStep isStock now) st).2.length := by
  induction models with
  | nil => intro st; exact Nat.le_refl _
  | cons m ms ih =>
    intro st
    rw [List.foldl_cons]
    refine Nat.le_trans ?_ (ih _)
    rcases openAIDiscoverStep_cases isStock now st m with hc | hc
    · rw [hc]
    · rw [hc]
      show st.2.length ≤ (st.2 ++ [m.id]).length
      simp

theorem openAIDiscoverFold_of_registered_unchanged (isStock : Bool) (now : String)
    (models : List OpenAIModel) :
    ∀ st : List ModelRegistryRow × List String,
      (models.foldl (openAIDiscoverStep isStock now) st).2 = st.2 →
      models.foldl (openAIDiscoverStep isStock now) st = st := by
  induction models with
  | nil => intro st _; rfl
  | cons m ms ih =>
    intro st h
    rw [List.foldl_cons] at h ⊢
    rcases openAIDiscoverStep_cases isStock now st m with hc | hc
    · rw [hc] at h ⊢; exact ih st h
    · exfalso
      have hlen := openAIDiscoverFold_registered_length isStock now ms
        (modelRegistryUpsert st.1 (openAIUpsertRow now m.id (modelRegistryGet st.1 m.id)),
         st.2 ++ [m.id])
      rw [hc] at h
      rw [h] at hlen
      simp at hlen

theorem openAIDiscoverFold_preserves_unregistered (isStock : Bool) (now : String)
    (models : List OpenAIModel) :
    ∀ st : List ModelRegistryRow × List String, ∀ r ∈ st.1,
      r.modelId ∉ (models.foldl (openAIDiscoverStep isStock now) st).2 →
      r ∈ (models.foldl (openAIDiscoverStep isStock now) st).1 := by
  induction models with
  | nil => intro st r hr _; exact hr
  | cons m ms ih =>
    intro st r hr hnot
    rw [List.foldl_cons] at hnot ⊢
    rcases openAIDiscoverStep_cases isStock now st m with hc | hc
    · rw [hc] at hnot ⊢; exact ih st r hr hnot
    · rw [hc] at hnot ⊢
      refine ih _ r ?_ hnot
      have hmid : m.id ∈ (ms.foldl (openAIDiscoverStep isStock now)
          (modelRegistryUpsert st.1 (openAIUpsertRow now m.id (modelRegistryGet st.1 m.id)),
           st.2 ++ [m.id])).2 := by
        exact openAIDiscoverFold_registered_mono isStock now ms _ m.id
          (List.mem_append_right _ (List.mem_singleton.mpr rfl))
      have hne : r.modelId ≠ m.id := fun heq => hnot (heq ▸ hmid)
      exact modelRegistryUpsert_mem_of_ne hr (by simpa [openAIUpsertRow] using hne)

/-! ## Tombstoning lemmas -/

theorem openAITombstoneStep_preserves_disabled {discovered : List String}
    {acc : List ModelRegistryRow} {tid : String}
    (h : ∀ r2 ∈ acc, r2.modelId = tid → r2.enabled = false) (row : ModelRegistryRow) :
    ∀ r2 ∈ openAITombstoneStep discovered acc row, r2.modelId = tid → r2.enabled = false := by
  unfold openAITombstoneStep
  split
  · exact h
  · split
    · exact h
    · split
      · exact h
      · exact modelRegistrySetEnabled_preserves_disabled h

theorem openAITombstoneFold_preserves_disabled {discovered : List String} {tid : String}
    (rows : List ModelRegistryRow) :
    ∀ acc : List ModelRegistryRow,
      (∀ r2 ∈ acc, r2.modelId = tid → r2.enabled = false) →
      ∀ r2 ∈ rows.foldl (openAITombstoneStep discovered) acc,
        r2.modelId = tid → r2.enabled = false := by
  induction rows with
  | nil => intro acc h; exact h
  | cons x xs ih =>
    intro acc h
    rw [List.foldl_cons]
    exact ih _ (openAITombstoneStep_preserves_disabled h x)

theorem openAITombstoneFold_hits {discovered : List String}
    (rows : List ModelRegistryRow) :
    ∀ acc : List ModelRegistryRow, ∀ r ∈ rows,
      r.provider = "openai" → r.enabled = true →
      discovered.contains r.modelId = false →
      ∀ r2 ∈ rows.foldl (openAITombstoneStep discovered) acc,
        r2.modelId = r.modelId → r2.enabled = false := by
  induction rows with
  | nil => intro acc r hr; exact absurd hr (List.not_mem_nil r)
  | cons x xs ih =>
    intro acc r hr hprov hen hcont
    rw [List.foldl_cons]
    rcases List.mem_cons.mp hr with hrx | hrx
    · subst hrx
      have hstep : openAITombstoneStep discovered acc r =
          modelRegistrySetEnabled acc r.modelId false := by
        unfold openAITombstoneStep
        rw [if_neg (by simp [hprov]), if_neg (by rw [hcont]; simp), if_neg (by simp [hen])]
      rw [hstep]
      exact openAITombstoneFold_preserves_disabled xs _
        modelRegistrySetEnabled_false_target
    · exact ih _ r hrx hprov hen hcont

theorem openAITombstoneStep_get_of_contained {discovered : List String} {tid : String}
    (hc : discovered.contains tid = true) (acc : List ModelRegistryRow)
    (row : ModelRegistryRow) :
    modelRegistryGet (openAITombstoneStep discovered acc row) tid =
      modelRegistryGet acc tid := by
  by_cases h1 : (row.provider != "openai") = true
  · unfold openAITombstoneStep; rw [if_pos h1]
  · by_cases h2 : discovered.contains row.modelId = true
    · unfold openAITombstoneStep; rw [if_neg h1, if_pos h2]
    · by_cases h3 : (!row.enabled) = true
      · unfold openAITombstoneStep; rw [if_neg h1, if_neg h2, if_pos h3]
      · unfold openAITombstoneStep; rw [if_neg h1, if_neg h2, if_neg h3]
        apply modelRegistrySetEnabled_get_of_ne
        intro he
        rw [he] at hc
        exact h2 hc

theorem openAITombstoneFold_get_of_contained {discovered : List String} {tid : String}
    (hc : discovered.contains tid = true) (rows : List ModelRegistryRow) :
    ∀ acc : List ModelRegistryRow,
      modelRegistryGet (rows.foldl (openAITombstoneStep discovered) acc) tid =
        modelRegistryGet acc tid := by
  induction rows with
  | nil => intro acc; rfl
  | cons x xs ih =>
    intro acc
    rw [List.foldl_cons, ih _, openAITombstoneStep_get_of_contained hc]

theorem openAITombstoneStep_providerOf {discovered : List String}
    (acc : List ModelRegistryRow) (row : ModelRegistryRow) (tid : String) :
    providerOf (openAITombstoneStep discovered acc row) tid = providerOf acc tid := by
  unfold openAITombstoneStep
  split
  · rfl
  · split
    · rfl
    · split
      · rfl
      · exact providerOf_setEnabled

theorem openAITombstoneFold_providerOf {discovered : List String} {tid : String}
    (rows : List ModelRegistryRow) :
    ∀ acc : List ModelRegistryRow,
      providerOf (rows.foldl (openAITombstoneStep discovered) acc) tid =
        providerOf acc tid := by
  induction rows with
  | nil => intro acc; rfl
  | cons x xs ih =>
    intro acc
    rw [List.foldl_cons, ih _, openAITombstoneStep_providerOf]

theorem openAIDiscoverFold_providerOf (isStock : Bool) (now tid : String)
    (models : List OpenAIModel) :
    ∀ st : List ModelRegistryRow × List String, (providerOf st.1 tid).isSome →
      providerOf ((models.foldl (openAIDiscoverStep isStock now) st).1) tid =
        providerOf st.1 tid := by
  induction models with
  | nil => intro st _; rfl
  | cons m ms ih =>
    intro st hsome
    rw [List.foldl_cons]
    rcases openAIDiscoverStep_cases isStock now st m with hc | hc
    · rw [hc]; exact ih st hsome
    · rw [hc]
      have hup := providerOf_upsert
        (openAIUpsertRow now m.id (modelRegistryGet st.1 m.id)) hsome
      have hsome2 : (providerOf (modelRegistryUpsert st.1
          (openAIUpsertRow now m.id (modelRegistryGet st.1 m.id))) tid).isSome := by
        rw [hup]; exact hsome
      have := ih (modelRegistryUpsert st.1
          (openAIUpsertRow now m.id (modelRegistryGet st.1 m.id)), st.2 ++ [m.id]) hsome2
      rw [this, hup]

/-! ## Anthropic discovery loop lemmas -/

theorem anthropicDiscoverStep_cases (now : String)
    (st : List ModelRegistryRow × List String) (m : AnthropicModel) :
    anthropicDiscoverStep now st m = st ∨
      anthropicDiscoverStep now st m =
        (modelRegistryUpsert st.1 (anthropicUpsertRow now m (modelRegistryGet st.1 m.id)),
         st.2 ++ [m.id]) := by
  unfold anthropicDiscoverStep
  split
  · exact Or.inl rfl
  · exact Or.inr rfl

theorem anthropicDiscoverStep_no_new_disabled {db0 : List ModelRegistryRow}
    {now : String} (st : List ModelRegistryRow × List String) (m : AnthropicModel)
    (h : ∀ r2 ∈ st.1, r2.enabled = false →
      ∃ r ∈ db0, r.modelId = r2.modelId ∧ r.enabled = false) :
    ∀ r2 ∈ (anthropicDiscoverStep now st m).1, r2.enabled = false →
      ∃ r ∈ db0, r.modelId = r2.modelId ∧ r.enabled = false := by
  rcases anthropicDiscoverStep_cases now st m with hc | hc
  · rw [hc]; exact h
  · rw [hc]
    intro r2 hr2 hdis
    rcases modelRegistryUpsert_mem_decomp hr2 with hin | hcase | hcase
    · exact h r2 hin hdis
    · rcases hcase with ⟨r, hrmem, hrid, heq⟩
      have hrowen : (anthropicUpsertRow now m (modelRegistryGet st.1 m.id)).enabled = false := by
        rw [heq] at hdis
        simpa using hdis
      cases hg : modelRegistryGet st.1 m.id with
      | none =>
        rw [hg] at hrowen
        simp [anthropicUpsertRow] at hrowen
      | some e =>
        rw [hg] at hrowen
        have hee : e.enabled = false := by simpa [anthropicUpsertRow] using hrowen
        rcases mem_of_modelRegistryGet hg with ⟨hemem, heid⟩
        rcases h e hemem hee with ⟨r0, hr0, hr0id, hr0en⟩
        refine ⟨r0, hr0, ?_, hr0en⟩
        rw [hr0id, heid, heq]
        simp [anthropicUpsertRow]
    · rcases hcase with ⟨heq, hnone⟩
      have hgn : modelRegistryGet st.1 m.id = none := by
        simpa [anthropicUpsertRow] using hnone
      rw [heq, hgn] at hdis
      simp [anthropicUpsertRow] at hdis

theorem anthropicDiscoverFold_no_new_disabled {db0 : List ModelRegistryRow}
    {now : String} (models : List AnthropicModel) :
    ∀ st : List ModelRegistryRow × List String,
      (∀ r2 ∈ st.1, r2.enabled = false →
        ∃ r ∈ db0, r.modelId = r2.modelId ∧ r.enabled = false) →
      ∀ r2 ∈ (models.foldl (anthropicDiscoverStep now) st).1, r2.enabled = false →
        ∃ r ∈ db0, r.modelId = r2.modelId ∧ r.enabled = false := by
  induction models with
  | nil => intro st h; exact h
  | cons m ms ih =>
    intro st h
    rw [List.foldl_cons]
    exact ih _ (anthropicDiscoverStep_no_new_disabled st m h)

theorem discoverAnthropicLoop_no_new_disabled {db0 : List ModelRegistryRow}
    (fetch : Nat → Option String → AnthropicFetch) (now : String) :
    ∀ (fuel pageCount : Nat) (afterId : Option String)
      (db : List ModelRegistryRow) (registered : List String),
      (∀ r2 ∈ db, r2.enabled = false →
        ∃ r ∈ db0, r.modelId = r2.modelId ∧ r.enabled = false) →
      ∀ r2 ∈ (discoverAnthropicLoop fetch now fuel pageCount afterId db registered).db,
        r2.enabled = false →
        ∃ r ∈ db0, r.modelId = r2.modelId ∧ r.enabled = false := by
  intro fuel
  induction fuel with
  | zero => intro pc aid db reg h; exact h
  | succ fuel ih =>
    intro pc aid db reg h
    show ∀ r2 ∈ (discoverAnthropicLoop fetch now (fuel + 1) pc aid db reg).db, _
    rw [discoverAnthropicLoop]
    cases hf : fetch (pc + 1) aid with
    | netErr msg => exact h
    | resp ok status dataArr hasMore lastId =>
      dsimp only
      by_cases hok : (!ok) = true
      · rw [if_pos hok]; exact h
      · rw [if_neg hok]
        cases dataArr with
        | none => exact h
        | some models =>
          dsimp only
          by_cases hmore : (!hasMore) = true
          · rw [if_pos hmore]
            exact anthropicDiscoverFold_no_new_disabled models (db, reg) h
          · rw [if_neg hmore]
            exact ih (pc + 1) (some lastId) _ _
              (anthropicDiscoverFold_no_new_disabled models (db, reg) h)

theorem anthropicDiscoverFold_providerOf (now tid : String)
    (models : List AnthropicModel) :
    ∀ st : List ModelRegistryRow × List String, (providerOf st.1 tid).isSome →
      providerOf ((models.foldl (anthropicDiscoverStep now) st).1) tid =
        providerOf st.1 tid := by
  induction models with
  | nil => intro st _; rfl
  | cons m ms ih =>
    intro st hsome
    rw [List.foldl_cons]
    rcases anthropicDiscoverStep_cases now st m with hc | hc
    · rw [hc]; exact ih st hsome
    · rw [hc]
      have hup := providerOf_upsert
        (anthropicUpsertRow now m (modelRegistryGet st.1 m.id)) hsome
      have hsome2 : (providerOf (modelRegistryUpsert st.1
          (anthropicUpsertRow now m (modelRegistryGet st.1 m.id))) tid).isSome := by
        rw [hup]; exact hsome
      have := ih (modelRegistryUpsert st.1
          (anthropicUpsertRow now m (modelRegistryGet st.1 m.id)), st.2 ++ [m.id]) hsome2
      rw [this, hup]

theorem discoverAnthropicLoop_providerOf
    (fetch : Nat → Option String → AnthropicFetch) (now tid : String) :
    ∀ (fuel pageCount : Nat) (afterId : Option String)
      (db : List ModelRegistryRow) (registered : List String),
      (providerOf db tid).isSome →
      providerOf (discoverAnthropicLoop fetch now fuel pageCount afterId db registered).db
        tid = providerOf db tid := by
  intro fuel
  induction fuel with
  | zero => intro pc aid db reg _; rfl
  | succ fuel ih =>
    intro pc aid db reg hsome
    show providerOf (discoverAnthropicLoop fetch now (fuel + 1) pc aid db reg).db tid = _
    rw [discoverAnthropicLoop]
    cases hf : fetch (pc + 1) aid with
    | netErr msg => rfl
    | resp ok status dataArr hasMore lastId =>
      dsimp only
      by_cases hok : (!ok) = true
      · rw [if_pos hok]
      · rw [if_neg hok]
        cases dataArr with
        | none => rfl
        | some models =>
          dsimp only
          have hfold := anthropicDiscoverFold_providerOf now tid models (db, reg) hsome
          by_cases hmore : (!hasMore) = true
          · rw [if_pos hmore]
            exact hfold
          · rw [if_neg hmore]
            have hsome2 : (providerOf ((models.foldl (anthropicDiscoverStep now)
                (db, reg)).1) tid).isSome := by
              rw [hfold]; exact hsome
            rw [ih (pc + 1) (some lastId) _ _ hsome2, hfold]

/-! ## Order facts for pruning -/

instance : IsTotal Child childOrder := by
  constructor
  intro a b
  by_cases h : a.createdAt = b.createdAt
  · rcases le_total a.id b.id with h2 | h2
    · exact Or.inl (Or.inr ⟨h, h2⟩)
    · exact Or.inr (Or.inr ⟨h.symm, h2⟩)
  · rcases lt_or_gt_of_ne h with h2 | h2
    · exact Or.inl (Or.inl h2)
    · exact Or.inr (Or.inl h2)

instance : IsTrans Child childOrder := by
  constructor
  intro a b c hab hbc
  rcases hab with h1 | ⟨h1e, h1le⟩
  · rcases hbc with h2 | ⟨h2e, h2le⟩
    · exact Or.inl (lt_trans h1 h2)
    · exact Or.inl (h2e ▸ h1)
  · rcases hbc with h2 | ⟨h2e, h2le⟩
    · exact Or.inl (h1e ▸ h2)
    · exact Or.inr ⟨h1e.trans h2e, le_trans h1le h2le⟩

/-! ## Claim theorems -/

/-- C4: for every call of cleanup(childId), if sandbox deletion succeeds the
child's latest lifecycle state becomes cleaned_up; if sandbox deletion fails
the call raises the deletion error and leaves the lifecycle log, and hence
the child's latest state, unchanged. -/
theorem C4_cleanup_transitions_only_on_success :
    ∀ (events : List LifecycleEvent) (childId now : String),
      (∀ msg, cleanupChild (Except.error msg) events childId now =
          (Except.error msg, events) ∧
        getCurrentState (cleanupChild (Except.error msg) events childId now).2 childId =
          getCurrentState events childId) ∧
      getCurrentState (cleanupChild (Except.ok ()) events childId now).2 childId =
        some "cleaned_up" := by
  intro events childId now
  refine ⟨fun msg => ⟨rfl, rfl⟩, ?_⟩
  show getCurrentState
    (events ++ [⟨childId, "cleaned_up", "cleaned_up", now⟩]) childId = some "cleaned_up"
  unfold getCurrentState
  rw [List.filter_append]
  simp

/-- C8: a chat call whose first POST to /v1/chat/completions returns a 404
endpoint-not-supported error retries exactly once against /v1/completions,
adapts the legacy response back into the message-and-usage chat contract,
and makes exactly two outbound HTTP calls in total. -/
theorem C8_legacy_fallback :
    ∀ (baseUrl : String) (responses : Nat → ProviderResponse)
      (status : Nat) (body text : String) (p q t : Nat),
      responses 0 = ProviderResponse.httpError status body →
      isEndpointUnsupported status body = true →
      responses 1 = ProviderResponse.legacyOk text p q t →
      inferenceChat baseUrl responses =
        ⟨Except.ok ⟨⟨"assistant", text⟩, ⟨p, q, t⟩⟩,
         [baseUrl ++ "/v1/chat/completions", baseUrl ++ "/v1/completions"]⟩ ∧
      (inferenceChat baseUrl responses).calls.length = 2 := by
  intro baseUrl responses status body text p q t h0 hu h1
  have heq : inferenceChat baseUrl responses =
      ⟨Except.ok ⟨⟨"assistant", text⟩, ⟨p, q, t⟩⟩,
       [baseUrl ++ "/v1/chat/completions", baseUrl ++ "/v1/completions"]⟩ := by
    unfold inferenceChat
    rw [h0]
    dsimp only
    rw [if_pos hu, h1]
  exact ⟨heq, by rw [heq]; rfl⟩

/-- Witness for C8 at the fixture of the low-compute test: a 404 with the
endpoint-not-supported body followed by a legacy completion with text
legacy ok gives back content legacy ok after exactly the two expected
outbound calls. -/
theorem C8_legacy_fallback_witness :
    inferenceChat "https://gateway.example.com"
        (fun n => if n == 0 then
            ProviderResponse.httpError 404
              "\x7b\"error\":\"/v1/chat/completions endpoint not supported\"\x7d"
          else ProviderResponse.legacyOk "legacy ok" 8 3 11) =
      ⟨Except.ok ⟨⟨"assistant", "legacy ok"⟩, ⟨8, 3, 11⟩⟩,
       ["https://gateway.example.com/v1/chat/completions",
        "https://gateway.example.com/v1/completions"]⟩ := by
  have h := C8_legacy_fallback "https://gateway.example.com"
    (fun n => if n == 0 then
        ProviderResponse.httpError 404
          "\x7b\"error\":\"/v1/chat/completions endpoint not supported\"\x7d"
      else ProviderResponse.legacyOk "legacy ok" 8 3 11)
    404 "\x7b\"error\":\"/v1/chat/completions endpoint not supported\"\x7d"
    "legacy ok" 8 3 11 rfl (by decide) rfl
  exact h.1

/-- C9: pruneDeadChildren with keepLast = N returns the number removed,
which is the count of dead children minus N (truncated at zero), and the
cleanup calls are exactly the ids of the oldest dead children in
oldest-first order, ties on created timestamp broken by id ascending: the
sorted list is a permutation of the dead children, sorted by childOrder,
and the calls are its first length-minus-N entries in order. -/
theorem C9_pruneDeadChildren_removes_oldest :
    ∀ (children : List Child) (keepLast : Nat),
      (pruneDeadChildren children keepLast).removed =
        (children.filter (fun c => c.status == "dead")).length - keepLast ∧
      (pruneDeadChildren children keepLast).cleanupCalls =
        ((sortChildrenOldestFirst (children.filter (fun c => c.status == "dead"))).take
          ((children.filter (fun c => c.status == "dead")).length - keepLast)).map
          (fun c => c.id) ∧
      (sortChildrenOldestFirst (children.filter (fun c => c.status == "dead"))).Perm
        (children.filter (fun c => c.status == "dead")) ∧
      (sortChildrenOldestFirst (children.filter (fun c => c.status == "dead"))).Sorted
        childOrder ∧
      (pruneDeadChildren children keepLast).removed =
        (pruneDeadChildren children keepLast).cleanupCalls.length := by
  intro children keepLast
  have hperm : (sortChildrenOldestFirst
      (children.filter (fun c => c.status == "dead"))).Perm
      (children.filter (fun c => c.status == "dead")) :=
    List.perm_insertionSort childOrder _
  have hlen := hperm.length_eq
  unfold pruneDeadChildren
  dsimp only
  refine ⟨?_, ?_, hperm, List.sorted_insertionSort childOrder _, ?_⟩
  · rw [List.length_take, hlen]
    exact Nat.min_eq_left (Nat.sub_le _ _)
  · rw [hlen]
  · rw [List.length_map]

/-- C2: for every run of spawnChild, a createSandbox failure propagates with
no deleteSandbox attempt; once createSandbox has succeeded, a failing
install exec, a failing init exec, a missing wallet address or an invalid
wallet address each cause a deleteSandbox attempt on the newly created
sandbox and propagate the original error.  The deleteSandbox field of the
script is universally quantified and never constrains the outcome, so a
throwing deleteSandbox cannot mask the original error. -/
theorem C2_spawnChild_cleanup_on_failure :
    ∀ (cap : SandboxScript) (st : ReplState) (childId name genesisPrompt now : String),
      (∀ e, cap.createSandbox = Except.error e →
        spawnChild cap st childId name genesisPrompt now = ⟨Except.error e, [], st⟩) ∧
      (∀ sid e, cap.createSandbox = Except.ok sid → cap.installExec = Except.error e →
        spawnChild cap st childId name genesisPrompt now = ⟨Except.error e, [sid], st⟩) ∧
      (∀ sid r e, cap.createSandbox = Except.ok sid → cap.installExec = Except.ok r →
        cap.initExec = Except.error e →
        spawnChild cap st childId name genesisPrompt now = ⟨Except.error e, [sid], st⟩) ∧
      (∀ sid r1 r2, cap.createSandbox = Except.ok sid → cap.installExec = Except.ok r1 →
        cap.initExec = Except.ok r2 → parseWalletAddress r2.stdout = none →
        spawnChild cap st childId name genesisPrompt now =
          ⟨Except.error "Child wallet address invalid", [sid], st⟩) ∧
      (∀ sid r1 r2 a, cap.createSandbox = Except.ok sid → cap.installExec = Except.ok r1 →
        cap.initExec = Except.ok r2 → parseWalletAddress r2.stdout = some a →
        isValidWalletAddress a = false →
        spawnChild cap st childId name genesisPrompt now =
          ⟨Except.error "Child wallet address invalid", [sid], st⟩) := by
  intro cap st childId name genesisPrompt now
  refine ⟨?_, ?_, ?_, ?_, ?_⟩
  · intro e h
    unfold spawnChild
    rw [h]
  · intro sid e h1 h2
    unfold spawnChild
    rw [h1, h2]
  · intro sid r e h1 h2 h3
    unfold spawnChild
    rw [h1, h2, h3]
  · intro sid r1 r2 h1 h2 h3 h4
    unfold spawnChild
    rw [h1, h2, h3]
    dsimp only
    rw [h4]
  · intro sid r1 r2 a h1 h2 h3 h4 h5
    unfold spawnChild
    rw [h1, h2, h3]
    dsimp only
    rw [h4]
    dsimp only
    rw [if_neg (by simp [h5])]

/-- Witness for C2 at the fixtures of the spawnChild tests: a failing
install exec together with a throwing deleteSandbox propagates the install
error and records the delete attempt on the new sandbox; a zero-address
init stdout propagates the invalid-address error with the same delete
attempt. -/
theorem C2_spawnChild_cleanup_on_failure_witness :
    spawnChild
        ⟨Except.ok "new-sandbox-id", Except.error "Install failed",
         Except.ok ⟨"ok", "", 0⟩, Except.error "delete also failed"⟩
        ⟨[], []⟩ "child-1" "test-child" "prompt" "T0" =
      ⟨Except.error "Install failed", ["new-sandbox-id"], ⟨[], []⟩⟩ ∧
    spawnChild
        ⟨Except.ok "new-sandbox-id", Except.ok ⟨"ok", "", 0⟩,
         Except.ok ⟨"Wallet: 0x0000000000000000000000000000000000000000", "", 0⟩,
         Except.ok ()⟩
        ⟨[], []⟩ "child-1" "test-child" "prompt" "T0" =
      ⟨Except.error "Child wallet address invalid", ["new-sandbox-id"], ⟨[], []⟩⟩ := by
  constructor
  · exact (C2_spawnChild_cleanup_on_failure
      ⟨Except.ok "new-sandbox-id", Except.error "Install failed",
       Except.ok ⟨"ok", "", 0⟩, Except.error "delete also failed"⟩
      ⟨[], []⟩ "child-1" "test-child" "prompt" "T0").2.1
      "new-sandbox-id" "Install failed" rfl rfl
  · exact (C2_spawnChild_cleanup_on_failure
      ⟨Except.ok "new-sandbox-id", Except.ok ⟨"ok", "", 0⟩,
       Except.ok ⟨"Wallet: 0x0000000000000000000000000000000000000000", "", 0⟩,
       Except.ok ()⟩
      ⟨[], []⟩ "child-1" "test-child" "prompt" "T0").2.2.2.2
      "new-sandbox-id" ⟨"ok", "", 0⟩
      ⟨"Wallet: 0x0000000000000000000000000000000000000000", "", 0⟩
      "0x0000000000000000000000000000000000000000" rfl rfl rfl (by decide) (by decide)

/-- C3: a spawnChild run that fails persists nothing - the children table
and the lifecycle log are unchanged; a successful run appends exactly the
returned child row and the initial sandbox_created lifecycle event, and the
returned child carries a valid wallet address and status spawning. -/
theorem C3_spawnChild_persists_only_after_valid_address :
    ∀ (cap : SandboxScript) (st : ReplState) (childId name genesisPrompt now : String),
      (∀ e, (spawnChild cap st childId name genesisPrompt now).result = Except.error e →
        (spawnChild cap st childId name genesisPrompt now).state = st) ∧
      (∀ c, (spawnChild cap st childId name genesisPrompt now).result = Except.ok c →
        (spawnChild cap st childId name genesisPrompt now).state.children =
          st.children ++ [c] ∧
        (spawnChild cap st childId name genesisPrompt now).state.events =
          st.events ++ [⟨childId, "sandbox_created", "created", now⟩] ∧
        isValidWalletAddress c.address = true ∧ c.status = "spawning") := by
  intro cap st childId name genesisPrompt now
  unfold spawnChild
  cases hcs : cap.createSandbox with
  | error e0 =>
    refine ⟨fun e he => rfl, fun c hc => absurd hc (by simp)⟩
  | ok sid =>
    dsimp only
    cases hinst : cap.installExec with
    | error e0 =>
      refine ⟨fun e he => rfl, fun c hc => absurd hc (by simp)⟩
    | ok r1 =>
      dsimp only
      cases hini : cap.initExec with
      | error e0 =>
        refine ⟨fun e he => rfl, fun c hc => absurd hc (by simp)⟩
      | ok r2 =>
        dsimp only
        cases hpw : parseWalletAddress r2.stdout with
        | none =>
          refine ⟨fun e he => rfl, fun c hc => absurd hc (by simp)⟩
        | some a =>
          dsimp only
          by_cases hv : isValidWalletAddress a = true
          · rw [if_pos hv]
            refine ⟨fun e he => absurd he (by simp), fun c hc => ?_⟩
            have hc2 : c = ⟨childId, name, a, sid, genesisPrompt, "spawning", now⟩ := by
              have := Except.ok.inj hc
              exact this.symm
            subst hc2
            exact ⟨rfl, rfl, hv, rfl⟩
          · rw [if_neg hv]
            refine ⟨fun e he => rfl, fun c hc => absurd hc (by simp)⟩

/-- Witness for C3: the successful spawn of the spawnChild test (init
stdout carrying a valid wallet address) appends exactly the child row and
the sandbox_created event, and the error runs of the C2 witness leave the
state empty. -/
theorem C3_spawnChild_persists_witness :
    (spawnChild
        ⟨Except.ok "new-sandbox-id", Except.ok ⟨"ok", "", 0⟩,
         Except.ok ⟨"Wallet initialized: 0xdeadbeefdeadbeefdeadbeefdeadbeefdeadbeef", "", 0⟩,
         Except.ok ()⟩
        ⟨[], []⟩ "child-1" "test-child" "prompt" "T0").state.children =
      [⟨"child-1", "test-child", "0xdeadbeefdeadbeefdeadbeefdeadbeefdeadbeef",
        "new-sandbox-id", "prompt", "spawning", "T0"⟩] ∧
    (spawnChild
        ⟨Except.ok "new-sandbox-id", Except.ok ⟨"ok", "", 0⟩,
         Except.ok ⟨"Wallet initialized: 0xdeadbeefdeadbeefdeadbeefdeadbeefdeadbeef", "", 0⟩,
         Except.ok ()⟩
        ⟨[], []⟩ "child-1" "test-child" "prompt" "T0").state.events =
      [⟨"child-1", "sandbox_created", "created", "T0"⟩] := by
  have h := (C3_spawnChild_persists_only_after_valid_address
    ⟨Except.ok "new-sandbox-id", Except.ok ⟨"ok", "", 0⟩,
     Except.ok ⟨"Wallet initialized: 0xdeadbeefdeadbeefdeadbeefdeadbeefdeadbeef", "", 0⟩,
     Except.ok ()⟩
    ⟨[], []⟩ "child-1" "test-child" "prompt" "T0").2
    ⟨"child-1", "test-child", "0xdeadbeefdeadbeefdeadbeefdeadbeefdeadbeef",
     "new-sandbox-id", "prompt", "spawning", "T0"⟩ (by rfl)
  exact ⟨h.1, h.2.1⟩

/-- C10: an OpenAI discovery pass that registered no model changes nothing
in the registry - in particular no enabled flag - since the tombstoning
loop runs only when at least one model was discovered. -/
theorem C10_no_tombstone_without_discovery :
    ∀ (baseUrl apiKey : String) (fetched : OpenAIFetch)
      (db : List ModelRegistryRow) (now : String),
      (discoverOpenAIModels baseUrl apiKey fetched db now).registered = [] →
      (discoverOpenAIModels baseUrl apiKey fetched db now).db = db := by
  intro baseUrl apiKey fetched db now h
  cases fetched with
  | netErr msg => rfl
  | resp ok status dataArr =>
    unfold discoverOpenAIModels at h ⊢
    dsimp only at h ⊢
    by_cases hok : (!ok) = true
    · rw [if_pos hok]
    · rw [if_neg hok] at h ⊢
      cases dataArr with
      | none => rfl
      | some models =>
        dsimp only at h ⊢
        have hst := openAIDiscoverFold_of_registered_unchanged
          (isStockOpenAIUrl baseUrl) now models (db, []) h
        rw [hst]
        rfl

/-- Witness for C10 at the tombstoning boundary: a stock-OpenAI pass whose
only entry is filtered out (whisper-1) registers nothing and leaves an
enabled row untouched. -/
theorem C10_no_tombstone_without_discovery_witness :
    (discoverOpenAIModels "https://api.openai.com" "key"
        (OpenAIFetch.resp true 200 (some [⟨"whisper-1"⟩]))
        [⟨"gpt-old", "openai", "GPT Old", "normal", 0, 0, 4096, 128000, true, false,
          "max_completion_tokens", true, "T0", "T0"⟩] "T1").db =
      [⟨"gpt-old", "openai", "GPT Old", "normal", 0, 0, 4096, 128000, true, false,
        "max_completion_tokens", true, "T0", "T0"⟩] :=
  C10_no_tombstone_without_discovery "https://api.openai.com" "key"
    (OpenAIFetch.resp true 200 (some [⟨"whisper-1"⟩]))
    [⟨"gpt-old", "openai", "GPT Old", "normal", 0, 0, 4096, 128000, true, false,
      "max_completion_tokens", true, "T0", "T0"⟩] "T1" (by decide)

/-- Counterexample to C5 as stated: an Anthropic pass whose first page
succeeds with claude-a and whose second page returns a 500 logs a warning
but returns the non-empty list of already-registered ids, not an empty
list. -/
theorem C5_counterexample :
    (discoverAnthropicModels "https://api.anthropic.com" "key"
        (fun page _ => if page == 1 then
            AnthropicFetch.resp true 200 (some [⟨"claude-a", "Claude A"⟩]) true "claude-a"
          else AnthropicFetch.resp false 500 none false "")
        [] "T1").registered = ["claude-a"] ∧
    (discoverAnthropicModels "https://api.anthropic.com" "key"
        (fun page _ => if page == 1 then
            AnthropicFetch.resp true 200 (some [⟨"claude-a", "Claude A"⟩]) true "claude-a"
          else AnthropicFetch.resp false 500 none false "")
        [] "T1").warnings =
      ["Anthropic /v1/models returned 500 - skipping discovery"] ∧
    (discoverAnthropicModels "https://api.anthropic.com" "key"
        (fun page _ => if page == 1 then
            AnthropicFetch.resp true 200 (some [⟨"claude-a", "Claude A"⟩]) true "claude-a"
          else AnthropicFetch.resp false 500 none false "")
        [] "T1").registered ≠ [] := by
  refine ⟨by decide, by decide, by decide⟩

/-- C5 as amended: every discovery failure (network or parse error, non-OK
status, missing data array) logs a warning and leaves the registry
unchanged; discoverOpenAIModels then returns an empty list, and
discoverAnthropicModels returns the ids registered before the failing
request - the empty list exactly when the first request fails, the case
stated here. -/
theorem C5_amended_soft_failures :
    (∀ (baseUrl apiKey now : String) (db : List ModelRegistryRow) (msg : String),
      discoverOpenAIModels baseUrl apiKey (OpenAIFetch.netErr msg) db now =
        ⟨[], db, ["OpenAI API not reachable at " ++ baseUrl ++ ": " ++ msg]⟩) ∧
    (∀ (baseUrl apiKey now : String) (db : List ModelRegistryRow) (status : Nat)
      (dataArr : Option (List OpenAIModel)),
      discoverOpenAIModels baseUrl apiKey (OpenAIFetch.resp false status dataArr) db now =
        ⟨[], db, ["OpenAI /v1/models returned " ++ toString status ++
          " - skipping discovery"]⟩) ∧
    (∀ (baseUrl apiKey now : String) (db : List ModelRegistryRow) (status : Nat),
      discoverOpenAIModels baseUrl apiKey (OpenAIFetch.resp true status none) db now =
        ⟨[], db, ["OpenAI /v1/models response has no data array"]⟩) ∧
    (∀ (baseUrl apiKey now : String) (db : List ModelRegistryRow)
      (fetch : Nat → Option String → AnthropicFetch) (msg : String),
      fetch 1 none = AnthropicFetch.netErr msg →
      discoverAnthropicModels baseUrl apiKey fetch db now =
        ⟨[], db, ["Anthropic API not reachable: " ++ msg]⟩) ∧
    (∀ (baseUrl apiKey now : String) (db : List ModelRegistryRow)
      (fetch : Nat → Option String → AnthropicFetch) (status : Nat)
      (dataArr : Option (List AnthropicModel)) (hasMore : Bool) (lastId : String),
      fetch 1 none = AnthropicFetch.resp false status dataArr hasMore lastId →
      discoverAnthropicModels baseUrl apiKey fetch db now =
        ⟨[], db, ["Anthropic /v1/models returned " ++ toString status ++
          " - skipping discovery"]⟩) ∧
    (∀ (baseUrl apiKey now : String) (db : List ModelRegistryRow)
      (fetch : Nat → Option String → AnthropicFetch) (status : Nat)
      (hasMore : Bool) (lastId : String),
      fetch 1 none = AnthropicFetch.resp true status none hasMore lastId →
      discoverAnthropicModels baseUrl apiKey fetch db now =
        ⟨[], db, ["Anthropic /v1/models response has no data array"]⟩) := by
  refine ⟨fun _ _ _ _ _ => rfl, fun _ _ _ _ _ _ => rfl, fun _ _ _ _ _ => rfl,
    ?_, ?_, ?_⟩
  · intro baseUrl apiKey now db fetch msg h
    have h2 : fetch (0 + 1) none = AnthropicFetch.netErr msg := h
    unfold discoverAnthropicModels
    show discoverAnthropicLoop fetch now (4 + 1) 0 none db [] = _
    rw [discoverAnthropicLoop, h2]
  · intro baseUrl apiKey now db fetch status dataArr hasMore lastId h
    have h2 : fetch (0 + 1) none =
      AnthropicFetch.resp false status dataArr hasMore lastId := h
    unfold discoverAnthropicModels
    show discoverAnthropicLoop fetch now (4 + 1) 0 none db [] = _
    rw [discoverAnthropicLoop, h2]
    rfl
  · intro baseUrl apiKey now db fetch status hasMore lastId h
    have h2 : fetch (0 + 1) none =
      AnthropicFetch.resp true status none hasMore lastId := h
    unfold discoverAnthropicModels
    show discoverAnthropicLoop fetch now (4 + 1) 0 none db [] = _
    rw [discoverAnthropicLoop, h2]
    dsimp only
    rw [if_neg (by simp)]

/-- Witness for C5 as amended: an Anthropic pass whose very first fetch
throws returns the empty list, leaves the registry row untouched and logs
the unreachable warning. -/
theorem C5_amended_soft_failures_witness :
    discoverAnthropicModels "https://api.anthropic.com" "key"
        (fun _ _ => AnthropicFetch.netErr "connection refused")
        [⟨"claude-old", "anthropic", "Old", "normal", 0, 0, 4096, 200000, true, true,
          "max_tokens", true, "T0", "T0"⟩] "T1" =
      ⟨[], [⟨"claude-old", "anthropic", "Old", "normal", 0, 0, 4096, 200000, true, true,
        "max_tokens", true, "T0", "T0"⟩],
       ["Anthropic API not reachable: connection refused"]⟩ :=
  C5_amended_soft_failures.2.2.2.1 "https://api.anthropic.com" "key" "T1"
    [⟨"claude-old", "anthropic", "Old", "normal", 0, 0, 4096, 200000, true, true,
      "max_tokens", true, "T0", "T0"⟩]
    (fun _ _ => AnthropicFetch.netErr "connection refused") "connection refused" rfl

/-- Counterexample to C1 as stated: an Anthropic discovery pass that
completes having discovered claude-new leaves the previously enabled
anthropic row claude-old, which was not seen this pass, still enabled -
discoverAnthropicModels has no tombstoning loop. -/
theorem C1_counterexample :
    (discoverAnthropicModels "https://api.anthropic.com" "key"
        (fun _ _ => AnthropicFetch.resp true 200
          (some [⟨"claude-new", "Claude New"⟩]) false "")
        [⟨"claude-old", "anthropic", "Old", "normal", 0, 0, 4096, 200000, true, true,
          "max_tokens", true, "T0", "T0"⟩] "T1").registered = ["claude-new"] ∧
    (modelRegistryGet (discoverAnthropicModels "https://api.anthropic.com" "key"
        (fun _ _ => AnthropicFetch.resp true 200
          (some [⟨"claude-new", "Claude New"⟩]) false "")
        [⟨"claude-old", "anthropic", "Old", "normal", 0, 0, 4096, 200000, true, true,
          "max_tokens", true, "T0", "T0"⟩] "T1").db "claude-old").map
      (fun r => r.enabled) = some true := by
  refine ⟨by decide, by decide⟩

/-- C1 as amended: after a discoverOpenAIModels pass that registered at
least one model, every previously enabled openai row whose modelId was not
registered this pass ends up with enabled false (all rows of that modelId
in the resulting registry are disabled); discoverAnthropicModels performs
no tombstoning at all - any row disabled after one of its passes was
already disabled, under the same modelId, before the pass. -/
theorem C1_amended_tombstoning :
    (∀ (baseUrl apiKey : String) (fetched : OpenAIFetch)
      (db : List ModelRegistryRow) (now : String),
      ∀ r ∈ db, r.provider = "openai" → r.enabled = true →
      (discoverOpenAIModels baseUrl apiKey fetched db now).registered ≠ [] →
      r.modelId ∉ (discoverOpenAIModels baseUrl apiKey fetched db now).registered →
      ∀ r2 ∈ (discoverOpenAIModels baseUrl apiKey fetched db now).db,
        r2.modelId = r.modelId → r2.enabled = false) ∧
    (∀ (baseUrl apiKey : String) (fetch : Nat → Option String → AnthropicFetch)
      (db : List ModelRegistryRow) (now : String),
      ∀ r2 ∈ (discoverAnthropicModels baseUrl apiKey fetch db now).db,
        r2.enabled = false → ∃ r ∈ db, r.modelId = r2.modelId ∧ r.enabled = false) := by
  constructor
  · intro baseUrl apiKey fetched db now r hr hprov hen hne hnot r2 hr2 hid
    cases fetched with
    | netErr msg => exact absurd rfl hne
    | resp ok status dataArr =>
      by_cases hok : (!ok) = true
      · have hres : discoverOpenAIModels baseUrl apiKey
            (OpenAIFetch.resp ok status dataArr) db now =
            ⟨[], db, ["OpenAI /v1/models returned " ++ toString status ++
              " - skipping discovery"]⟩ := by
          unfold discoverOpenAIModels
          dsimp only
          rw [if_pos hok]
        rw [hres] at hne
        exact absurd rfl hne
      · cases dataArr with
        | none =>
          have hres : discoverOpenAIModels baseUrl apiKey
              (OpenAIFetch.resp ok status none) db now =
              ⟨[], db, ["OpenAI /v1/models response has no data array"]⟩ := by
            unfold discoverOpenAIModels
            dsimp only
            rw [if_neg hok]
          rw [hres] at hne
          exact absurd rfl hne
        | some models =>
          have hres : discoverOpenAIModels baseUrl apiKey
              (OpenAIFetch.resp ok status (some models)) db now =
              ⟨(models.foldl (openAIDiscoverStep (isStockOpenAIUrl baseUrl) now)
                  (db, [])).2,
               if (models.foldl (openAIDiscoverStep (isStockOpenAIUrl baseUrl) now)
                   (db, [])).2.isEmpty then
                 (models.foldl (openAIDiscoverStep (isStockOpenAIUrl baseUrl) now)
                   (db, [])).1
               else
                 openAITombstone
                   (models.foldl (openAIDiscoverStep (isStockOpenAIUrl baseUrl) now)
                     (db, [])).2
                   (models.foldl (openAIDiscoverStep (isStockOpenAIUrl baseUrl) now)
                     (db, [])).1,
               []⟩ := by
            unfold discoverOpenAIModels
            dsimp only
            rw [if_neg hok]
          rw [hres] at hne hnot hr2
          dsimp only at hne hnot hr2
          have hemp : (models.foldl (openAIDiscoverStep (isStockOpenAIUrl baseUrl) now)
              (db, [])).2.isEmpty = false := by
            cases hl : (models.foldl (openAIDiscoverStep (isStockOpenAIUrl baseUrl) now)
                (db, [])).2 with
            | nil => exact absurd hl hne
            | cons a l => rfl
          rw [hemp, if_neg (show ¬(false = true) by simp)] at hr2
          have hpres := openAIDiscoverFold_preserves_unregistered
            (isStockOpenAIUrl baseUrl) now models (db, []) r hr hnot
          have hcont : (models.foldl (openAIDiscoverStep (isStockOpenAIUrl baseUrl) now)
              (db, [])).2.contains r.modelId = false := by
            simpa using hnot
          unfold openAITombstone modelRegistryGetAll at hr2
          exact openAITombstoneFold_hits _ _ r hpres hprov hen hcont r2 hr2 hid
  · intro baseUrl apiKey fetch db now r2 hr2 hdis
    unfold discoverAnthropicModels at hr2
    exact discoverAnthropicLoop_no_new_disabled fetch now 5 0 none db []
      (fun r3 h3 hd => ⟨r3, h3, rfl, hd⟩) r2 hr2 hdis

/-- Witness for C1 as amended at the discovery-tombstoning scenario of the
spec: registry rows gpt-a and gpt-b of provider openai are enabled, a
stock-OpenAI pass returns only gpt-a, and afterwards gpt-b is disabled. -/
theorem C1_amended_tombstoning_witness :
    (modelRegistryGet (discoverOpenAIModels "https://api.openai.com" "key"
        (OpenAIFetch.resp true 200 (some [⟨"gpt-a"⟩]))
        [⟨"gpt-a", "openai", "A", "normal", 0, 0, 4096, 128000, true, false,
          "max_completion_tokens", true, "T0", "T0"⟩,
         ⟨"gpt-b", "openai", "B", "normal", 0, 0, 4096, 128000, true, false,
          "max_completion_tokens", true, "T0", "T0"⟩] "T1").db "gpt-b").map
      (fun r => r.enabled) = some false := by
  have h := C1_amended_tombstoning.1 "https://api.openai.com" "key"
    (OpenAIFetch.resp true 200 (some [⟨"gpt-a"⟩]))
    [⟨"gpt-a", "openai", "A", "normal", 0, 0, 4096, 128000, true, false,
      "max_completion_tokens", true, "T0", "T0"⟩,
     ⟨"gpt-b", "openai", "B", "normal", 0, 0, 4096, 128000, true, false,
      "max_completion_tokens", true, "T0", "T0"⟩] "T1"
    ⟨"gpt-b", "openai", "B", "normal", 0, 0, 4096, 128000, true, false,
      "max_completion_tokens", true, "T0", "T0"⟩
    (by decide) rfl rfl (by decide) (by decide)
  cases hg : modelRegistryGet (discoverOpenAIModels "https://api.openai.com" "key"
      (OpenAIFetch.resp true 200 (some [⟨"gpt-a"⟩]))
      [⟨"gpt-a", "openai", "A", "normal", 0, 0, 4096, 128000, true, false,
        "max_completion_tokens", true, "T0", "T0"⟩,
       ⟨"gpt-b", "openai", "B", "normal", 0, 0, 4096, 128000, true, false,
        "max_completion_tokens", true, "T0", "T0"⟩] "T1").db "gpt-b" with
  | none => exact absurd hg (by decide)
  | some rb =>
    rcases mem_of_modelRegistryGet hg with ⟨hmem, hid⟩
    have := h rb hmem hid
    simp [this]

/-- C7: a discovery pass never changes the provider of a row that already
exists - the provider recorded for any modelId present before the pass is
unchanged afterwards, for both discoverers; in particular upserting a
modelId that exists under a different provider leaves that provider as it
was (see the witness). -/
theorem C7_provider_never_changes :
    (∀ (baseUrl apiKey : String) (fetched : OpenAIFetch)
      (db : List ModelRegistryRow) (now tid : String),
      (providerOf db tid).isSome →
      providerOf (discoverOpenAIModels baseUrl apiKey fetched db now).db tid =
        providerOf db tid) ∧
    (∀ (baseUrl apiKey : String) (fetch : Nat → Option String → AnthropicFetch)
      (db : List ModelRegistryRow) (now tid : String),
      (providerOf db tid).isSome →
      providerOf (discoverAnthropicModels baseUrl apiKey fetch db now).db tid =
        providerOf db tid) := by
  constructor
  · intro baseUrl apiKey fetched db now tid hsome
    cases fetched with
    | netErr msg => rfl
    | resp ok status dataArr =>
      by_cases hok : (!ok) = true
      · have hres : discoverOpenAIModels baseUrl apiKey
            (OpenAIFetch.resp ok status dataArr) db now =
            ⟨[], db, ["OpenAI /v1/models returned " ++ toString status ++
              " - skipping discovery"]⟩ := by
          unfold discoverOpenAIModels
          dsimp only
          rw [if_pos hok]
        rw [hres]
      · cases dataArr with
        | none =>
          have hres : discoverOpenAIModels baseUrl apiKey
              (OpenAIFetch.resp ok status none) db now =
              ⟨[], db, ["OpenAI /v1/models response has no data array"]⟩ := by
            unfold discoverOpenAIModels
            dsimp only
            rw [if_neg hok]
          rw [hres]
        | some models =>
          have hres : discoverOpenAIModels baseUrl apiKey
              (OpenAIFetch.resp ok status (some models)) db now =
              ⟨(models.foldl (openAIDiscoverStep (isStockOpenAIUrl baseUrl) now)
                  (db, [])).2,
               if (models.foldl (openAIDiscoverStep (isStockOpenAIUrl baseUrl) now)
                   (db, [])).2.isEmpty then
                 (models.foldl (openAIDiscoverStep (isStockOpenAIUrl baseUrl) now)
                   (db, [])).1
               else
                 openAITombstone
                   (models.foldl (openAIDiscoverStep (isStockOpenAIUrl baseUrl) now)
                     (db, [])).2
                   (models.foldl (openAIDiscoverStep (isStockOpenAIUrl baseUrl) now)
                     (db, [])).1,
               []⟩ := by
            unfold discoverOpenAIModels
            dsimp only
            rw [if_neg hok]
          rw [hres]
          dsimp only
          have hfold := openAIDiscoverFold_providerOf (isStockOpenAIUrl baseUrl)
            now tid models (db, []) hsome
          by_cases hemp : (models.foldl (openAIDiscoverStep (isStockOpenAIUrl baseUrl)
              now) (db, [])).2.isEmpty = true
          · rw [if_pos hemp]
            exact hfold
          · rw [if_neg hemp]
            unfold openAITombstone modelRegistryGetAll
            rw [openAITombstoneFold_providerOf]
            exact hfold
  · intro baseUrl apiKey fetch db now tid hsome
    unfold discoverAnthropicModels
    exact discoverAnthropicLoop_providerOf fetch now tid 5 0 none db [] hsome

/-- Witness for C7 at a cross-provider collision: a non-stock OpenAI pass
upserting modelId m1 that already exists with provider anthropic leaves
the provider anthropic. -/
theorem C7_provider_never_changes_witness :
    providerOf (discoverOpenAIModels "https://gateway.example.com" "key"
        (OpenAIFetch.resp true 200 (some [⟨"m1"⟩]))
        [⟨"m1", "anthropic", "M One", "normal", 0, 0, 4096, 200000, true, false,
          "max_tokens", true, "T0", "T0"⟩] "T1").db "m1" = some "anthropic" := by
  have h := C7_provider_never_changes.1 "https://gateway.example.com" "key"
    (OpenAIFetch.resp true 200 (some [⟨"m1"⟩]))
    [⟨"m1", "anthropic", "M One", "normal", 0, 0, 4096, 200000, true, false,
      "max_tokens", true, "T0", "T0"⟩] "T1" "m1" (by decide)
  rw [h]
  decide

/-- Counterexample to C6 as stated: a registry row for m1 whose existing
display name is the empty string is rediscovered by a non-stock OpenAI
pass, and its display name is overwritten with the formatted default M1 -
the JS or-else on displayName does not preserve a falsy existing value,
unlike the nullish coalescing used for every other field. -/
theorem C6_counterexample :
    (modelRegistryGet (discoverOpenAIModels "https://gateway.example.com" "key"
        (OpenAIFetch.resp true 200 (some [⟨"m1"⟩]))
        [⟨"m1", "openai", "", "normal", 3, 7, 100, 5, false, false,
          "max_tokens", true, "T0", "T0"⟩] "T1").db "m1").map
      (fun r => r.displayName) = some "M1" ∧ ("M1" : String) ≠ "" := by
  refine ⟨by decide, by decide⟩

/-- C6 as amended: the upsert a discovery pass performs for an existing
row preserves the tier minimum, per-1k costs, max tokens, context window,
tool and vision support flags, parameter style, enabled flag and creation
timestamp; the display name is preserved exactly when it is non-empty (an
empty display name is replaced by the formatted default, or for Anthropic
by the display_name of the response falling back to the formatted
default); provider is kept by the store, and updatedAt is overwritten with
the pass timestamp.  Stated for a pass whose response carries the single
model being upserted. -/
theorem C6_amended_upsert_preserves_fields :
    (∀ (baseUrl apiKey now : String) (db : List ModelRegistryRow) (m : OpenAIModel)
      (status : Nat) (e : ModelRegistryRow),
      modelRegistryGet db m.id = some e →
      m.id ≠ "" →
      (isStockOpenAIUrl baseUrl &&
        !(OpenAI.chatModelPattern m.id && !OpenAI.excludePattern m.id)) = false →
      modelRegistryGet (discoverOpenAIModels baseUrl apiKey
          (OpenAIFetch.resp true status (some [m])) db now).db m.id =
        some { modelId := m.id, provider := e.provider,
               displayName := if e.displayName = "" then OpenAI.formatDisplayName m.id
                 else e.displayName,
               tierMinimum := e.tierMinimum, costPer1kInput := e.costPer1kInput,
               costPer1kOutput := e.costPer1kOutput, maxTokens := e.maxTokens,
               contextWindow := e.contextWindow, supportsTools := e.supportsTools,
               supportsVision := e.supportsVision, parameterStyle := e.parameterStyle,
               enabled := e.enabled, createdAt := e.createdAt, updatedAt := now }) ∧
    (∀ (baseUrl apiKey now : String) (db : List ModelRegistryRow) (m : AnthropicModel)
      (status : Nat) (lastId : String) (e : ModelRegistryRow),
      modelRegistryGet db m.id = some e →
      m.id ≠ "" →
      modelRegistryGet (discoverAnthropicModels baseUrl apiKey
          (fun _ _ => AnthropicFetch.resp true status (some [m]) false lastId)
          db now).db m.id =
        some { modelId := m.id, provider := e.provider,
               displayName := if e.displayName = "" then
                   (if m.displayName = "" then Anthropic.formatDisplayName m.id
                    else m.displayName)
                 else e.displayName,
               tierMinimum := e.tierMinimum, costPer1kInput := e.costPer1kInput,
               costPer1kOutput := e.costPer1kOutput, maxTokens := e.maxTokens,
               contextWindow := e.contextWindow, supportsTools := e.supportsTools,
               supportsVision := e.supportsVision, parameterStyle := e.parameterStyle,
               enabled := e.enabled, createdAt := e.createdAt, updatedAt := now }) := by
  constructor
  · intro baseUrl apiKey now db m status e h1 h2 h3
    have hstep : openAIDiscoverStep (isStockOpenAIUrl baseUrl) now (db, []) m =
        (modelRegistryUpsert db (openAIUpsertRow now m.id (modelRegistryGet db m.id)),
         [m.id]) := by
      unfold openAIDiscoverStep
      rw [if_neg (by simp [h2]), if_neg (by rw [h3]; simp)]
      rfl
    have hres : discoverOpenAIModels baseUrl apiKey
        (OpenAIFetch.resp true status (some [m])) db now =
        ⟨[m.id], openAITombstone [m.id]
          (modelRegistryUpsert db (openAIUpsertRow now m.id (modelRegistryGet db m.id))),
         []⟩ := by
      unfold discoverOpenAIModels
      dsimp only
      rw [if_neg (by simp)]
      rw [List.foldl_cons, List.foldl_nil, hstep]
      dsimp only
      rw [if_neg (by simp)]
    rw [hres]
    unfold openAITombstone modelRegistryGetAll
    rw [openAITombstoneFold_get_of_contained (by simp)]
    rw [modelRegistryGet_upsert_self
      (show (openAIUpsertRow now m.id (modelRegistryGet db m.id)).modelId = m.id
        from rfl) h1, h1]
    by_cases hd : e.displayName = ""
    · simp [openAIUpsertRow, hd]
    · simp [openAIUpsertRow, hd]
  · intro baseUrl apiKey now db m status lastId e h1 h2
    have hstep : anthropicDiscoverStep now (db, []) m =
        (modelRegistryUpsert db (anthropicUpsertRow now m (modelRegistryGet db m.id)),
         [m.id]) := by
      unfold anthropicDiscoverStep
      rw [if_neg (by simp [h2])]
      rfl
    have hres : discoverAnthropicModels baseUrl apiKey
        (fun _ _ => AnthropicFetch.resp true status (some [m]) false lastId) db now =
        ⟨[m.id],
         modelRegistryUpsert db (anthropicUpsertRow now m (modelRegistryGet db m.id)),
         []⟩ := by
      unfold discoverAnthropicModels
      show discoverAnthropicLoop _ now (4 + 1) 0 none db [] = _
      rw [discoverAnthropicLoop]
      dsimp only
      rw [if_neg (by simp)]
      rw [List.foldl_cons, List.foldl_nil, hstep]
      rfl
    rw [hres]
    rw [modelRegistryGet_upsert_self
      (show (anthropicUpsertRow now m (modelRegistryGet db m.id)).modelId = m.id
        from rfl) h1, h1]
    by_cases hd : e.displayName = ""
    · by_cases hm : m.displayName = ""
      · simp [anthropicUpsertRow, hd, hm]
      · simp [anthropicUpsertRow, hd, hm]
    · simp [anthropicUpsertRow, hd]

/-- Witness for C6 as amended: a non-stock OpenAI pass rediscovering m1
keeps the human-edited display name, costs, flags, parameter style,
enabled flag and creation time of the existing row and stamps updatedAt;
an Anthropic pass rediscovering claude-z with an empty stored display name
takes the display_name of the response. -/
theorem C6_amended_upsert_preserves_fields_witness :
    modelRegistryGet (discoverOpenAIModels "https://gateway.example.com" "key"
        (OpenAIFetch.resp true 200 (some [⟨"m1"⟩]))
        [⟨"m1", "conway", "Custom", "low", 3, 7, 100, 5, false, true,
          "max_tokens", false, "T0", "T9"⟩] "T1").db "m1" =
      some ⟨"m1", "conway", "Custom", "low", 3, 7, 100, 5, false, true,
        "max_tokens", false, "T0", "T1"⟩ ∧
    modelRegistryGet (discoverAnthropicModels "https://api.anthropic.com" "key"
        (fun _ _ => AnthropicFetch.resp true 200 (some [⟨"claude-z", "Z"⟩]) false "")
        [⟨"claude-z", "anthropic", "", "normal", 1, 2, 300, 9, false, false,
          "max_tokens", true, "T0", "T0"⟩] "T1").db "claude-z" =
      some ⟨"claude-z", "anthropic", "Z", "normal", 1, 2, 300, 9, false, false,
        "max_tokens", true, "T0", "T1"⟩ := by
  constructor
  · exact C6_amended_upsert_preserves_fields.1 "https://gateway.example.com" "key"
      "T1" [⟨"m1", "conway", "Custom", "low", 3, 7, 100, 5, false, true,
        "max_tokens", false, "T0", "T9"⟩] ⟨"m1"⟩ 200
      ⟨"m1", "conway", "Custom", "low", 3, 7, 100, 5, false, true,
        "max_tokens", false, "T0", "T9"⟩ (by decide) (by decide) (by decide)
  · exact C6_amended_upsert_preserves_fields.2 "https://api.anthropic.com" "key"
      "T1" [⟨"claude-z", "anthropic", "", "normal", 1, 2, 300, 9, false, false,
        "max_tokens", true, "T0", "T0"⟩] ⟨"claude-z", "Z"⟩ 200 ""
      ⟨"claude-z", "anthropic", "", "normal", 1, 2, 300, 9, false, false,
        "max_tokens", true, "T0", "T0"⟩ (by decide) (by decide)
